import Mathlib

/-!
Verification development for the delivery pipeline of the
web-scraping-telegram repository: the per-category circuit breaker and
queue manager (src/queue_manager.py) and the durable deduplication store
(src/message_store.py), shallowly embedded in Lean.

Time is modelled as a natural-number monotonic clock (the code uses
`time.monotonic()`); byte strings are lists of naturals.
-/

namespace WebScrape

/-! ### Circuit breaker (src/queue_manager.py, class CircuitBreaker) -/

/-- The three breaker states `STATE_CLOSED`, `STATE_OPEN`, `STATE_HALF_OPEN`. -/
inductive BState
  | closed
  | opened
  | halfOpen
deriving DecidableEq, Repr

/-- State of one `CircuitBreaker` instance: the configured
`failure_threshold` and `reset_timeout` plus the mutable fields
`_failures`, `_last_failure_time`, `_state`. -/
structure CircuitBreaker where
  failure_threshold : Nat
  reset_timeout : Nat
  failures : Nat
  last_failure_time : Nat
  state : BState
deriving DecidableEq, Repr

/-- `CircuitBreaker.__init__`: counters zeroed, state CLOSED. -/
def CircuitBreaker.init (threshold timeout : Nat) : CircuitBreaker :=
  { failure_threshold := threshold
    reset_timeout := timeout
    failures := 0
    last_failure_time := 0
    state := BState.closed }

/-- `CircuitBreaker.record_success`: HALF_OPEN closes the breaker and
zeroes the counter; CLOSED with a positive counter zeroes the counter;
OPEN is unchanged. -/
def record_success (cb : CircuitBreaker) : CircuitBreaker :=
  match cb.state with
  | BState.halfOpen => { cb with state := BState.closed, failures := 0 }
  | BState.closed => if cb.failures > 0 then { cb with failures := 0 } else cb
  | BState.opened => cb

/-- `CircuitBreaker.record_failure` at monotonic time `now`: increments
`_failures`, stamps `_last_failure_time`, then HALF_OPEN reopens, and
CLOSED opens once the (incremented) counter reaches the threshold.  The
increment is inlined into each branch (the Python code increments first,
then inspects the unchanged state and the incremented counter). -/
def record_failure (now : Nat) (cb : CircuitBreaker) : CircuitBreaker :=
  if cb.state = BState.halfOpen then
    { cb with failures := cb.failures + 1, last_failure_time := now, state := BState.opened }
  else if cb.failures + 1 ≥ cb.failure_threshold ∧ cb.state = BState.closed then
    { cb with failures := cb.failures + 1, last_failure_time := now, state := BState.opened }
  else
    { cb with failures := cb.failures + 1, last_failure_time := now }

/-- `CircuitBreaker.is_open` at monotonic time `now`: in OPEN, once
`now - _last_failure_time >= reset_timeout` the breaker moves to
HALF_OPEN, zeroes the counter and reports not-open; otherwise it reports
open unchanged.  CLOSED and HALF_OPEN report not-open unchanged.
Returns (reported value, updated breaker). -/
def is_open (now : Nat) (cb : CircuitBreaker) : Bool × CircuitBreaker :=
  match cb.state with
  | BState.opened =>
    if now - cb.last_failure_time ≥ cb.reset_timeout then
      (false, { cb with state := BState.halfOpen, failures := 0 })
    else
      (true, cb)
  | _ => (false, cb)

/-- `n` consecutive `record_failure` calls, all stamped `now`. -/
def iterate_failures (now : Nat) : Nat → CircuitBreaker → CircuitBreaker
  | 0, cb => cb
  | n + 1, cb => iterate_failures now n (record_failure now cb)

/-! ### Serialization and encryption models

`MessageStore.save` serializes the id set with `pickle.dumps` and
optionally encrypts with `Fernet`; both are external libraries, so they
are modelled here only through the structure the store relies on: an
injective encoding with a decoder, and a key-indexed reversible cipher
whose decryption fails on data produced under a different key. -/

/-- A deserialized Python value as far as `MessageStore.load` inspects
it: either a set of integer ids or some other object. -/
inductive PyObj
  | pyset (ids : List Nat)
  | pyother (tag : Nat)
deriving DecidableEq, Repr

/-- Modelled from the spec: `pickle.dumps` ("serialize the set"), an
external library.  Tag 0 marks a set of ids, tag 1 any other object. -/
def pickleDumps : PyObj → List Nat
  | PyObj.pyset ids => 0 :: ids
  | PyObj.pyother t => 1 :: [t]

/-- Modelled from the spec: `pickle.loads` ("deserialize into a set"),
an external library; `none` models `pickle.UnpicklingError`. -/
def pickleLoads : List Nat → Option PyObj
  | 0 :: rest => some (PyObj.pyset rest)
  | 1 :: [t] => some (PyObj.pyother t)
  | _ => none

/-- Modelled from the spec: `Fernet.encrypt` ("symmetric cipher"), an
external library.  A token is the key tag followed by the plaintext;
`none` key means encryption disabled (`_encrypt_data` returns raw data). -/
def encryptData : Option Nat → List Nat → List Nat
  | none, data => data
  | some k, data => k :: data

/-- Modelled from the spec: `Fernet.decrypt`, an external library;
`none` models `InvalidToken` (key mismatch or corrupted data).  With no
key configured `_decrypt_data` returns the raw bytes. -/
def decryptData : Option Nat → List Nat → Option (List Nat)
  | none, data => some data
  | some _, [] => none
  | some k, k' :: rest => if k' = k then some rest else none

/-! ### Message store (src/message_store.py, class MessageStore)

The filesystem the store touches is modelled explicitly: the main store
file, the temporary file created by `save` (the caller-visible one of
this call; `temp_file_path` starts as `None`), the quarantined copies
produced by `_backup_invalid_file`, and the backup directory as a list
of (modification time, bytes) entries in creation order. -/

/-- Configuration fields of `MessageStore` drawn from `AppConfig`:
`message_store_save_interval`, `message_store_max_backups` and the
optional encryption key (already normalized by `_get_encryption_key`;
`none` when encryption is disabled). -/
structure StoreConfig where
  saveInterval : Nat
  maxBackups : Nat
  key : Option Nat
deriving DecidableEq, Repr

/-- On-disk state touched by `MessageStore`. -/
structure StoreFS where
  mainFile : Option (List Nat)
  tempFile : Option (List Nat)
  quarantined : List (String × List Nat)
  backups : List (Nat × List Nat)
deriving DecidableEq, Repr

/-- In-memory state of `MessageStore`: the `_messages` set and
`_last_save_time`. -/
structure StoreState where
  messages : Finset Nat
  lastSaveTime : Nat
deriving DecidableEq

/-- Injection points for a failure (a raised exception) inside
`MessageStore.save`, in the order the corresponding operations run:
`pickle.dumps`, `_encrypt_data`, `tempfile.mkstemp`, the temp-file
write, and `os.replace`. -/
inductive SaveFail
  | serialize
  | encrypt
  | mkstemp
  | tempWrite
  | rename
deriving DecidableEq, Repr

/-- `pickle.dumps(self._messages)`: the id set serialized through the
pickle model, listing the ids in ascending order. -/
def serializeMessages (msgs : Finset Nat) : List Nat :=
  pickleDumps (PyObj.pyset (msgs.sort (· ≤ ·)))

/-- Insert a backup entry into a list sorted by modification time. -/
def insertByTime {α : Type} (p : Nat × α) : List (Nat × α) → List (Nat × α)
  | [] => [p]
  | q :: rest => if p.1 ≤ q.1 then p :: q :: rest else q :: insertByTime p rest

/-- Sort backup-directory entries by modification time
(`key=os.path.getmtime` in `_cleanup_old_backups`). -/
def sortByTime {α : Type} : List (Nat × α) → List (Nat × α)
  | [] => []
  | p :: rest => insertByTime p (sortByTime rest)

/-- `MessageStore._cleanup_old_backups`: sort the backup files by
modification time and delete the oldest ones beyond `_max_backups`. -/
def cleanupOldBackups (maxBackups : Nat) (dir : List (Nat × List Nat)) : List (Nat × List Nat) :=
  let sorted := sortByTime dir
  if sorted.length > maxBackups then sorted.drop (sorted.length - maxBackups) else sorted

/-- `MessageStore._create_backup` at time `now`: write `data` to a
timestamped file in the backup directory, then run the cleanup. -/
def createBackup (cfg : StoreConfig) (now : Nat) (data : List Nat) (fs : StoreFS) : StoreFS :=
  { fs with backups := cleanupOldBackups cfg.maxBackups (fs.backups ++ [(now, data)]) }

/-- `MessageStore.save` at monotonic time `now`.  `fail` injects a
raised exception at one of the five operation points; the `except`
clause swallows it and the `finally` clause removes the temporary file
if one exists (`temp_file_path` is still `None` for the first three
points).  On the success path the temporary file is written, atomically
renamed over the main file, `_last_save_time` is stamped, and only then
the backup is created. -/
def MessageStore_save (cfg : StoreConfig) (force : Bool) (now : Nat) (fail : Option SaveFail)
    (st : StoreState) (fs : StoreFS) : StoreState × StoreFS :=
  if !force && now - st.lastSaveTime < cfg.saveInterval then (st, fs)
  else if fail = some SaveFail.serialize then (st, fs)
  else
    let raw := serializeMessages st.messages
    if fail = some SaveFail.encrypt then (st, fs)
    else
      let dataToWrite := encryptData cfg.key raw
      if fail = some SaveFail.mkstemp then (st, fs)
      else
        let fs1 := { fs with tempFile := some [] }
        if fail = some SaveFail.tempWrite then (st, { fs1 with tempFile := none })
        else
          let fs2 := { fs1 with tempFile := some dataToWrite }
          if fail = some SaveFail.rename then (st, { fs2 with tempFile := none })
          else
            let fs3 := { fs2 with mainFile := some dataToWrite, tempFile := none }
            ({ st with lastSaveTime := now }, createBackup cfg now dataToWrite fs3)

/-- `MessageStore._backup_invalid_file`: move the problematic main file
aside under a reason-tagged name. -/
def backupInvalidFile (reason : String) (content : List Nat) (fs : StoreFS) : StoreFS :=
  { fs with mainFile := none, quarantined := fs.quarantined ++ [(reason, content)] }

/-- `MessageStore.load`: missing file yields the empty set; a
decryption failure (`InvalidToken`), an unpickling failure, or a
deserialized value that is not a set quarantines the file under the
matching reason tag and yields the empty set; otherwise the loaded set
is returned.  Every failure is caught, so the function is total. -/
def MessageStore_load (cfg : StoreConfig) (fs : StoreFS) : Finset Nat × StoreFS :=
  match fs.mainFile with
  | none => (∅, fs)
  | some raw =>
    match decryptData cfg.key raw with
    | none => (∅, backupInvalidFile "decryption_error" raw fs)
    | some dec =>
      match pickleLoads dec with
      | none => (∅, backupInvalidFile "unpickle_error" raw fs)
      | some (PyObj.pyset ids) => (ids.toFinset, fs)
      | some (PyObj.pyother _) => (∅, backupInvalidFile "invalid_type" raw fs)

/-- A sequence of forced, fully successful `save` calls, one per
(monotonic time, current id set) pair. -/
def simulateSaves (cfg : StoreConfig) (L : List (Nat × Finset Nat))
    (st : StoreState) (fs : StoreFS) : StoreState × StoreFS :=
  L.foldl (fun acc p => MessageStore_save cfg true p.1 none { acc.1 with messages := p.2 } acc.2)
    (st, fs)

/-- The backup-directory entry a successful save at time `p.1` of set
`p.2` produces. -/
def encodeSave (cfg : StoreConfig) (p : Nat × Finset Nat) : Nat × List Nat :=
  (p.1, encryptData cfg.key (serializeMessages p.2))

/-- Strictly increasing modification times along a list of timestamped
entries. -/
def ascendingTimes {α : Type} : List (Nat × α) → Bool
  | [] => true
  | [_] => true
  | p :: q :: rest => decide (p.1 < q.1) && ascendingTimes (q :: rest)

/-! ### Queue manager (src/queue_manager.py, class QueueManager) -/

/-- A Python value as far as the queue manager inspects payloads:
`job_data.get('high_salary', False)` is tested for truthiness. -/
inductive PyVal
  | vBool : Bool → PyVal
  | vInt : Int → PyVal
  | vStr : String → PyVal
  | vNone : PyVal
deriving DecidableEq, Repr

/-- Python truthiness of the modelled values. -/
def PyVal.truthy : PyVal → Bool
  | PyVal.vBool b => b
  | PyVal.vInt n => decide (n ≠ 0)
  | PyVal.vStr s => decide (s ≠ "")
  | PyVal.vNone => false

/-- A job dictionary: string keys to values, unique keys. -/
structure JobDict where
  fields : List (String × PyVal)
deriving DecidableEq, Repr

/-- `dict.get(key, default)`. -/
def JobDict.get (d : JobDict) (k : String) (dflt : PyVal) : PyVal :=
  match d.fields.find? (fun p => p.1 == k) with
  | some p => p.2
  | none => dflt

/-- What `add_to_queue` receives: a dictionary, or any non-dictionary
object (rejected by the `isinstance` check). -/
inductive Payload
  | dict : JobDict → Payload
  | nondict : PyVal → Payload
deriving DecidableEq, Repr

/-- A task scheduled with `asyncio.create_task` by `add_to_queue`. -/
inductive ScheduledTask
  | processQueues
deriving DecidableEq, Repr

/-- Queue-manager configuration drawn from `AppConfig`:
`max_queue_size`, `max_batch_size`, `queue_processing_interval`. -/
structure QMConfig where
  maxQueueSize : Nat
  maxBatchSize : Nat
  queueProcessingInterval : Nat
deriving DecidableEq, Repr

/-- Mutable state of `QueueManager`: the two category deques (front of
the list = left of the deque), the two permanent failed-item lists, the
two circuit breakers, and `_last_batch_process_time`. -/
structure QMState where
  highQueue : List JobDict
  lowQueue : List JobDict
  failedHigh : List JobDict
  failedLow : List JobDict
  cbHigh : CircuitBreaker
  cbLow : CircuitBreaker
  lastBatchProcessTime : Nat
deriving DecidableEq, Repr

/-- `QueueManager.add_to_queue`: a non-dictionary payload is rejected
up front (warning logged, nothing changed, nothing scheduled).  A
dictionary is routed by the truthiness of its 'high_salary' key
(default False); a full queue schedules a processing task but the item
is still appended; reaching the batch size schedules a processing
task. -/
def add_to_queue (cfg : QMConfig) (st : QMState) (payload : Payload) :
    QMState × List ScheduledTask :=
  match payload with
  | Payload.nondict _ => (st, [])
  | Payload.dict d =>
    let isHigh := (d.get "high_salary" (PyVal.vBool false)).truthy
    let q := if isHigh then st.highQueue else st.lowQueue
    let fullTasks := if q.length ≥ cfg.maxQueueSize then [ScheduledTask.processQueues] else []
    let q1 := q ++ [d]
    let batchTasks := if q1.length ≥ cfg.maxBatchSize then [ScheduledTask.processQueues] else []
    (if isHigh then { st with highQueue := q1 } else { st with lowQueue := q1 },
      fullTasks ++ batchTasks)

/-- The batch-extraction loop of `process_queues`:
`while queue and count < max_batch_size: batch.append(queue.popleft())`.
Returns (batch, remaining queue). -/
def extractBatch : Nat → List JobDict → List JobDict × List JobDict
  | _, [] => ([], [])
  | 0, q => ([], q)
  | n + 1, x :: rest =>
    let br := extractBatch n rest
    (x :: br.1, br.2)

/-- Repeated dispatch rounds over one category with the breaker closed
and the sink succeeding: each round pops one batch; `fuel` bounds the
recursion (any value at least the queue length drains it). -/
def dispatchRounds (maxB : Nat) : Nat → List JobDict → List (List JobDict)
  | 0, _ => []
  | _ + 1, [] => []
  | fuel + 1, x :: rest =>
    let br := extractBatch maxB (x :: rest)
    br.1 :: dispatchRounds maxB fuel br.2

/-- Outcome of `sheet_manager.save_batch_to_sheet` as observed by
`_process_single_batch`: returned True, returned False, or an
exception escaped into the `except` clause. -/
inductive SinkOutcome
  | ok
  | fail
  | exc
deriving DecidableEq, Repr

/-- Externally visible events of one category's slice of a dispatch
cycle. -/
inductive QEvent
  | sinkCall (batch : List JobDict)
  | recordedSuccess
  | recordedFailure
deriving DecidableEq, Repr

/-- `QueueManager._process_single_batch`: calls the sink; on True
returns success; on False, or on an unexpected exception, extends the
category's permanent failed-item list with the whole batch and returns
failure.  The function itself never lets the exception escape.
Returns (failed list, events, success flag). -/
def process_single_batch (batch : List JobDict) (outcome : SinkOutcome)
    (failed : List JobDict) : List JobDict × List QEvent × Bool :=
  match outcome with
  | SinkOutcome.ok => (failed, [QEvent.sinkCall batch], true)
  | SinkOutcome.fail => (failed ++ batch, [QEvent.sinkCall batch], false)
  | SinkOutcome.exc => (failed ++ batch, [QEvent.sinkCall batch], false)

/-- Result of one category's slice of a `process_queues` cycle. -/
structure CatResult where
  queue : List JobDict
  breaker : CircuitBreaker
  failed : List JobDict
  events : List QEvent
  processedOk : Bool
deriving DecidableEq, Repr

/-- One category's slice of a `process_queues` cycle at time `now`:
skip an empty queue; pop up to `max_batch_size` items; if the breaker
reports open, push the batch back onto the front of the queue in its
original order and move on; otherwise process the batch and record the
outcome on the breaker. -/
def processCategory (cfg : QMConfig) (now : Nat) (outcome : SinkOutcome)
    (queue : List JobDict) (cb : CircuitBreaker) (failed : List JobDict) : CatResult :=
  if queue.isEmpty then ⟨queue, cb, failed, [], false⟩
  else
    let br := extractBatch cfg.maxBatchSize queue
    if br.1.isEmpty then ⟨br.2, cb, failed, [], false⟩
    else
      let op := is_open now cb
      if op.1 then ⟨br.1 ++ br.2, op.2, failed, [], false⟩
      else
        let pr := process_single_batch br.1 outcome failed
        if pr.2.2 then
          ⟨br.2, record_success op.2, pr.1, pr.2.1 ++ [QEvent.recordedSuccess], true⟩
        else
          ⟨br.2, record_failure now op.2, pr.1, pr.2.1 ++ [QEvent.recordedFailure], false⟩

/-- `QueueManager.process_queues` at time `now`: unless forced, skip
the cycle when the minimum interval since the last processed batch has
not elapsed; otherwise run the high-salary category then the low-salary
category, and stamp `_last_batch_process_time` if any batch succeeded.
Events are tagged with their category. -/
def process_queues (cfg : QMConfig) (now : Nat) (force : Bool)
    (outHigh outLow : SinkOutcome) (st : QMState) : QMState × List (String × QEvent) :=
  if !force && now - st.lastBatchProcessTime < cfg.queueProcessingInterval then (st, [])
  else
    let r1 := processCategory cfg now outHigh st.highQueue st.cbHigh st.failedHigh
    let r2 := processCategory cfg now outLow st.lowQueue st.cbLow st.failedLow
    ({ highQueue := r1.queue, lowQueue := r2.queue,
       failedHigh := r1.failed, failedLow := r2.failed,
       cbHigh := r1.breaker, cbLow := r2.breaker,
       lastBatchProcessTime :=
         if r1.processedOk || r2.processedOk then now else st.lastBatchProcessTime },
     r1.events.map (fun e => ("high_salary", e)) ++ r2.events.map (fun e => ("low_salary", e)))

/-! ### Shutdown failure dump (src/queue_manager.py, _save_failed_items)

`_save_failed_items` evaluates the global names `Path` and `json`, but
the module `queue_manager.py` imports neither (its imports are asyncio,
gc, logging, os, time, collections.deque, typing, config_loader,
sheets_manager), so evaluating `Path(...)` raises `NameError` as soon as
one category has failed items; the `try` block around `open`/`json.dump`
does not cover that line. -/

/-- The global names bound in module `queue_manager.py` (imports and
module-level definitions). -/
def queueManagerModuleNames : List String :=
  ["asyncio", "gc", "logging", "os", "time", "deque", "List", "Dict", "Any", "Optional",
   "AppConfig", "SheetManager", "logger", "psutil", "PSUTIL_AVAILABLE",
   "CircuitBreaker", "QueueManager"]

/-- A failure-dump file `failed_{category}_items_{timestamp}.json`. -/
structure FailedDump where
  category : String
  timestamp : Nat
  items : List JobDict
deriving DecidableEq, Repr

/-- Result of running a piece of Python: a value, or an uncaught
`NameError` for an unbound global. -/
inductive PyOutcome (α : Type)
  | ok (val : α)
  | nameError (missing : String)
deriving DecidableEq, Repr

/-- `QueueManager._save_failed_items` at wall-clock `ts`: iterate the
per-category failed-item lists, skipping empty ones; for a non-empty
one, evaluate `Path(self.config.base_path) / ...` — which first resolves
the global name `Path`, raising `NameError` when it is unbound — and
only then would open the file and `json.dump` the items. -/
def save_failed_items (ts : Nat) : List (String × List JobDict) → PyOutcome (List FailedDump)
  | [] => PyOutcome.ok []
  | (qt, items) :: rest =>
    if items.isEmpty then save_failed_items ts rest
    else if "Path" ∈ queueManagerModuleNames then
      match save_failed_items ts rest with
      | PyOutcome.ok ds => PyOutcome.ok ({ category := qt, timestamp := ts, items := items } :: ds)
      | e => e
    else PyOutcome.nameError "Path"

/-! ### Theorems -/

theorem pickleLoads_pickleDumps (o : PyObj) : pickleLoads (pickleDumps o) = some o := by
  cases o <;> rfl

theorem decryptData_encryptData (key : Option Nat) (data : List Nat) :
    decryptData key (encryptData key data) = some data := by
  cases key with
  | none => rfl
  | some k => simp [encryptData, decryptData]

theorem record_failure_closed_stay (now : Nat) (cb : CircuitBreaker)
    (hs : cb.state = BState.closed) (hlt : cb.failures + 1 < cb.failure_threshold) :
    record_failure now cb
      = { cb with failures := cb.failures + 1, last_failure_time := now } := by
  rw [record_failure, if_neg (by simp [hs]), if_neg (by rintro ⟨h1, -⟩; omega)]

theorem record_failure_closed_flip (now : Nat) (cb : CircuitBreaker)
    (hs : cb.state = BState.closed) (hge : cb.failure_threshold ≤ cb.failures + 1) :
    record_failure now cb
      = { cb with failures := cb.failures + 1, last_failure_time := now, state := BState.opened } := by
  rw [record_failure, if_neg (by simp [hs]), if_pos ⟨hge, hs⟩]

theorem record_failure_opened_stay (now : Nat) (cb : CircuitBreaker)
    (hs : cb.state = BState.opened) :
    record_failure now cb
      = { cb with failures := cb.failures + 1, last_failure_time := now } := by
  rw [record_failure, if_neg (by simp [hs]), if_neg (by rintro ⟨-, h2⟩; simp [hs] at h2)]

theorem iterate_failures_opened (now : Nat) :
    ∀ (k : Nat) (cb : CircuitBreaker), cb.state = BState.opened →
      (iterate_failures now k cb).state = BState.opened := by
  intro k
  induction k with
  | zero => intro cb hs; simpa [iterate_failures] using hs
  | succ n ih =>
    intro cb hs
    have hrw : iterate_failures now (n + 1) cb
        = iterate_failures now n (record_failure now cb) := rfl
    rw [hrw, record_failure_opened_stay now cb hs]
    exact ih _ (by simp [hs])

theorem iterate_failures_reaches_open (now : Nat) :
    ∀ (k : Nat) (cb : CircuitBreaker), cb.state = BState.closed →
      cb.failures < cb.failure_threshold →
      cb.failure_threshold ≤ cb.failures + k →
      (iterate_failures now k cb).state = BState.opened := by
  intro k
  induction k with
  | zero => intro cb _ hlt hge; omega
  | succ n ih =>
    intro cb hs hlt hge
    have hrw : iterate_failures now (n + 1) cb
        = iterate_failures now n (record_failure now cb) := rfl
    rw [hrw]
    by_cases hflip : cb.failure_threshold ≤ cb.failures + 1
    · rw [record_failure_closed_flip now cb hs hflip]
      exact iterate_failures_opened now n _ (by simp)
    · rw [record_failure_closed_stay now cb hs (by omega)]
      exact ih _ (by simp [hs]) (by simp; omega) (by simp; omega)

/-- Claim C1 counterexample: with threshold 2 and timeout 5, a breaker
that went OPEN at monotonic time 0 is checked at time 5.  The elapsed
time (5) has not exceeded the timeout (5), yet `is_open` does not return
"open with no state change": it returns false and transitions, because
the code compares with `>=`, not `>`. -/
theorem C1_breaker_boundary_counterexample :
    (5 : Nat) - (0 : Nat) ≤ (5 : Nat) ∧
      is_open 5 ⟨2, 5, 2, 0, BState.opened⟩ ≠ (true, ⟨2, 5, 2, 0, BState.opened⟩) ∧
      (is_open 5 ⟨2, 5, 2, 0, BState.opened⟩).1 = false := by
  decide

/-- Claim C1 (amended): starting Closed, T consecutive `record_failure`
calls (T = threshold ≥ 1) move the state to Open; while Open, an
`is_open` call whose elapsed time since the last failure is strictly
less than the timeout returns true with no state change; once the
elapsed time has reached the timeout, the first `is_open` call returns
false, sets the state to HalfOpen and resets the failure counter, and
this transition happens exactly once (further `is_open` calls leave the
HalfOpen state unchanged); a `record_success` while HalfOpen sets the
state to Closed and resets the counter; a `record_failure` while
HalfOpen sets the state back to Open and updates the last-failure
timestamp; a `record_success` while Closed with a non-zero counter
resets the counter to zero. -/
theorem C1_breaker_transitions (T t now : Nat) (hT : 1 ≤ T) :
    (iterate_failures now T (CircuitBreaker.init T t)).state = BState.opened
    ∧ (∀ (cb : CircuitBreaker) (now2 : Nat), cb.state = BState.opened →
        now2 - cb.last_failure_time < cb.reset_timeout →
        is_open now2 cb = (true, cb))
    ∧ (∀ (cb : CircuitBreaker) (now2 : Nat), cb.state = BState.opened →
        cb.reset_timeout ≤ now2 - cb.last_failure_time →
        is_open now2 cb = (false, { cb with state := BState.halfOpen, failures := 0 })
        ∧ ∀ (now3 : Nat),
            is_open now3 { cb with state := BState.halfOpen, failures := 0 }
              = (false, { cb with state := BState.halfOpen, failures := 0 }))
    ∧ (∀ cb : CircuitBreaker, cb.state = BState.halfOpen →
        record_success cb = { cb with state := BState.closed, failures := 0 })
    ∧ (∀ (cb : CircuitBreaker) (now2 : Nat), cb.state = BState.halfOpen →
        record_failure now2 cb
          = { cb with state := BState.opened, failures := cb.failures + 1, last_failure_time := now2 })
    ∧ (∀ cb : CircuitBreaker, cb.state = BState.closed → cb.failures ≠ 0 →
        record_success cb = { cb with failures := 0 }) := by
  refine ⟨?_, ?_, ?_, ?_, ?_, ?_⟩
  · exact iterate_failures_reaches_open now T (CircuitBreaker.init T t) rfl
      (by simpa [CircuitBreaker.init] using hT) (by simp [CircuitBreaker.init])
  · intro cb now2 hs hlt
    simp [is_open, hs, Nat.not_le.mpr hlt]
  · intro cb now2 hs hge
    constructor
    · simp [is_open, hs, hge]
    · intro now3
      simp [is_open]
  · intro cb hs
    simp [record_success, hs]
  · intro cb now2 hs
    simp [record_failure, hs]
  · intro cb hs hz
    simp [record_success, hs, Nat.pos_of_ne_zero hz]

/-- Claim C2: for every set of message ids held in the store, a forced
`save` followed by a `load` yields a set equal to the original, both
when an encryption key is configured (`cfg.key = some k`) and when
encryption is disabled (`cfg.key = none`); the configuration, the prior
on-disk state and the clock are arbitrary. -/
theorem C2_save_load_roundtrip (cfg : StoreConfig) (st : StoreState) (fs : StoreFS)
    (now : Nat) :
    (MessageStore_load cfg (MessageStore_save cfg true now none st fs).2).1 = st.messages := by
  simp [MessageStore_save, MessageStore_load, createBackup, serializeMessages,
    decryptData_encryptData, pickleLoads_pickleDumps, Finset.sort_toFinset]

/-- Claim C3: a failure injected into `save` during serialization,
encryption, temp-file creation or the temp-file write (all the points
before the atomic rename) leaves the previously committed main file
unchanged, leaves no temporary file behind, writes no backup, and leaves
the in-memory state (including `_last_save_time`) unchanged. -/
theorem C3_save_atomicity (cfg : StoreConfig) (st : StoreState) (fs : StoreFS) (now : Nat)
    (fp : SaveFail) (htemp : fs.tempFile = none)
    (hfp : fp = SaveFail.serialize ∨ fp = SaveFail.encrypt ∨ fp = SaveFail.mkstemp ∨
      fp = SaveFail.tempWrite) :
    (MessageStore_save cfg true now (some fp) st fs).2.mainFile = fs.mainFile
    ∧ (MessageStore_save cfg true now (some fp) st fs).2.tempFile = none
    ∧ (MessageStore_save cfg true now (some fp) st fs).2.backups = fs.backups
    ∧ (MessageStore_save cfg true now (some fp) st fs).1 = st := by
  rcases hfp with h | h | h | h <;> subst h <;> simp [MessageStore_save, htemp]

/-- Witness for C3: a failure injected at the temp-file write leaves
main file bytes `[9]` in place. -/
theorem C3_save_atomicity_witness :
    (MessageStore_save ⟨10, 3, some 5⟩ true 4 (some SaveFail.tempWrite) ⟨{1, 2}, 0⟩
        ⟨some [9], none, [], []⟩).2.mainFile = some [9] := by
  simpa using (C3_save_atomicity ⟨10, 3, some 5⟩ ⟨{1, 2}, 0⟩ ⟨some [9], none, [], []⟩ 4
    SaveFail.tempWrite rfl (by decide)).1

/-- Claim C7: `load` is a total function (every exception path in the
code is caught): a missing file yields the empty set with the filesystem
untouched; a decryption failure, an unpickling failure, or a
deserialized value that is not a set moves the offending file aside
under the matching reason-tagged suffix and yields the empty set. -/
theorem C7_load_resilient (cfg : StoreConfig) (fs : StoreFS) :
    (fs.mainFile = none → MessageStore_load cfg fs = (∅, fs))
    ∧ (∀ raw, fs.mainFile = some raw → decryptData cfg.key raw = none →
        MessageStore_load cfg fs = (∅, backupInvalidFile "decryption_error" raw fs))
    ∧ (∀ raw dec, fs.mainFile = some raw → decryptData cfg.key raw = some dec →
        pickleLoads dec = none →
        MessageStore_load cfg fs = (∅, backupInvalidFile "unpickle_error" raw fs))
    ∧ (∀ raw dec t, fs.mainFile = some raw → decryptData cfg.key raw = some dec →
        pickleLoads dec = some (PyObj.pyother t) →
        MessageStore_load cfg fs = (∅, backupInvalidFile "invalid_type" raw fs)) := by
  refine ⟨?_, ?_, ?_, ?_⟩
  · intro h
    simp [MessageStore_load, h]
  · intro raw h1 h2
    simp [MessageStore_load, h1, h2]
  · intro raw dec h1 h2 h3
    simp [MessageStore_load, h1, h2, h3]
  · intro raw dec t h1 h2 h3
    simp [MessageStore_load, h1, h2, h3]

/-- Witness for C7: with key 5 configured — a missing file, a file
encrypted under key 7, a file that decrypts but does not unpickle, and a
file holding a pickled non-set, each land in the stated case. -/
theorem C7_load_resilient_witness :
    MessageStore_load ⟨10, 3, some 5⟩ ⟨none, none, [], []⟩ = (∅, ⟨none, none, [], []⟩)
    ∧ MessageStore_load ⟨10, 3, some 5⟩ ⟨some [7, 0, 1], none, [], []⟩
        = (∅, backupInvalidFile "decryption_error" [7, 0, 1] ⟨some [7, 0, 1], none, [], []⟩)
    ∧ MessageStore_load ⟨10, 3, some 5⟩ ⟨some [5, 3], none, [], []⟩
        = (∅, backupInvalidFile "unpickle_error" [5, 3] ⟨some [5, 3], none, [], []⟩)
    ∧ MessageStore_load ⟨10, 3, some 5⟩ ⟨some [5, 1, 9], none, [], []⟩
        = (∅, backupInvalidFile "invalid_type" [5, 1, 9] ⟨some [5, 1, 9], none, [], []⟩) := by
  refine ⟨(C7_load_resilient ⟨10, 3, some 5⟩ _).1 rfl,
    (C7_load_resilient ⟨10, 3, some 5⟩ _).2.1 [7, 0, 1] rfl (by decide),
    (C7_load_resilient ⟨10, 3, some 5⟩ _).2.2.1 [5, 3] [3] rfl (by decide) (by decide),
    (C7_load_resilient ⟨10, 3, some 5⟩ _).2.2.2 [5, 1, 9] [1, 9] 9 rfl (by decide) (by decide)⟩

theorem ascendingTimes_cons_of {α : Type} (p : Nat × α) (rest : List (Nat × α))
    (h : ascendingTimes (p :: rest) = true) : ascendingTimes rest = true := by
  cases rest with
  | nil => rfl
  | cons q t => exact ((by simpa [ascendingTimes] using h : p.1 < q.1 ∧ _)).2

theorem ascendingTimes_head_lt {α : Type} :
    ∀ (rest : List (Nat × α)) (p : Nat × α), ascendingTimes (p :: rest) = true →
      ∀ q ∈ rest, p.1 < q.1 := by
  intro rest
  induction rest with
  | nil => intro p _ q hq; simp at hq
  | cons r t ih =>
    intro p h q hq
    have h' : p.1 < r.1 ∧ ascendingTimes (r :: t) = true := by simpa [ascendingTimes] using h
    rcases List.mem_cons.mp hq with rfl | hq2
    · exact h'.1
    · exact lt_trans h'.1 (ih r h'.2 q hq2)

theorem ascendingTimes_drop {α : Type} :
    ∀ (k : Nat) (l : List (Nat × α)), ascendingTimes l = true →
      ascendingTimes (l.drop k) = true := by
  intro k
  induction k with
  | zero => intro l h; simpa using h
  | succ n ih =>
    intro l h
    cases l with
    | nil => rfl
    | cons p rest =>
      simpa [List.drop_succ_cons] using ih rest (ascendingTimes_cons_of p rest h)

theorem sortByTime_eq_self {α : Type} :
    ∀ l : List (Nat × α), ascendingTimes l = true → sortByTime l = l := by
  intro l
  induction l with
  | nil => intro _; rfl
  | cons p rest ih =>
    intro h
    have hr := ascendingTimes_cons_of p rest h
    rw [sortByTime, ih hr]
    cases rest with
    | nil => rfl
    | cons q t =>
      have h' : p.1 < q.1 ∧ ascendingTimes (q :: t) = true := by simpa [ascendingTimes] using h
      simp [insertByTime, le_of_lt h'.1]

theorem ascendingTimes_append_one {α : Type} (e : Nat × α) :
    ∀ l : List (Nat × α), ascendingTimes l = true → (∀ b ∈ l, b.1 < e.1) →
      ascendingTimes (l ++ [e]) = true := by
  intro l
  induction l with
  | nil => intro _ _; rfl
  | cons p rest ih =>
    intro h hlt
    cases rest with
    | nil =>
      have : p.1 < e.1 := hlt p (by simp)
      simp [ascendingTimes, this]
    | cons q t =>
      have h' : p.1 < q.1 ∧ ascendingTimes (q :: t) = true := by simpa [ascendingTimes] using h
      have ihr := ih h'.2 (fun b hb => hlt b (List.mem_cons_of_mem p hb))
      simpa [ascendingTimes, h'.1] using ihr

theorem cleanupOldBackups_ascending (N : Nat) (A : List (Nat × List Nat))
    (h : ascendingTimes A = true) :
    cleanupOldBackups N A = A.drop (A.length - N) := by
  simp only [cleanupOldBackups, sortByTime_eq_self A h]
  split
  · rfl
  · rw [Nat.sub_eq_zero_of_le (by omega), List.drop_zero]

theorem save_success_backups (cfg : StoreConfig) (st : StoreState) (fs : StoreFS) (now : Nat) :
    (MessageStore_save cfg true now none st fs).2.backups
      = cleanupOldBackups cfg.maxBackups
          (fs.backups ++ [(now, encryptData cfg.key (serializeMessages st.messages))]) := by
  simp [MessageStore_save, createBackup]

theorem simulateSaves_cons (cfg : StoreConfig) (p : Nat × Finset Nat)
    (rest : List (Nat × Finset Nat)) (st : StoreState) (fs : StoreFS) :
    simulateSaves cfg (p :: rest) st fs
      = simulateSaves cfg rest
          (MessageStore_save cfg true p.1 none { st with messages := p.2 } fs).1
          (MessageStore_save cfg true p.1 none { st with messages := p.2 } fs).2 := rfl

theorem simulateSaves_backups (cfg : StoreConfig) :
    ∀ (L : List (Nat × Finset Nat)) (st : StoreState) (fs : StoreFS),
      ascendingTimes L = true →
      ascendingTimes fs.backups = true →
      fs.backups.length ≤ cfg.maxBackups →
      (∀ b ∈ fs.backups, ∀ p ∈ L, b.1 < p.1) →
      (simulateSaves cfg L st fs).2.backups
        = (fs.backups ++ L.map (encodeSave cfg)).drop
            ((fs.backups.length + L.length) - cfg.maxBackups) := by
  intro L
  induction L with
  | nil =>
    intro st fs _ _ hlen _
    have h0 : fs.backups.length - cfg.maxBackups = 0 := Nat.sub_eq_zero_of_le hlen
    simp [simulateSaves, h0]
  | cons p rest ih =>
    intro st fs hL hB hlen hlt
    have hrest : ascendingTimes rest = true := ascendingTimes_cons_of p rest hL
    have hplt : ∀ q ∈ rest, p.1 < q.1 := ascendingTimes_head_lt rest p hL
    have hA : ascendingTimes (fs.backups ++ [encodeSave cfg p]) = true := by
      refine ascendingTimes_append_one _ fs.backups hB ?_
      intro b hb
      simpa [encodeSave] using hlt b hb p (by simp)
    rw [simulateSaves_cons]
    have hsb : (MessageStore_save cfg true p.1 none { st with messages := p.2 } fs).2.backups
        = (fs.backups ++ [encodeSave cfg p]).drop
            ((fs.backups ++ [encodeSave cfg p]).length - cfg.maxBackups) := by
      rw [save_success_backups, ← cleanupOldBackups_ascending cfg.maxBackups _ hA]
      rfl
    have ihc := ih (MessageStore_save cfg true p.1 none { st with messages := p.2 } fs).1
      (MessageStore_save cfg true p.1 none { st with messages := p.2 } fs).2
      hrest
      (by rw [hsb]; exact ascendingTimes_drop _ _ hA)
      (by rw [hsb, List.length_drop]; omega)
      (by
        intro b hb q hq
        rw [hsb] at hb
        rcases List.mem_append.mp (List.mem_of_mem_drop hb) with hbB | hbe
        · exact hlt b hbB q (List.mem_cons_of_mem p hq)
        · have hbe2 : b = encodeSave cfg p := by simpa using hbe
          subst hbe2
          simpa [encodeSave] using hplt q hq)
    rw [ihc, hsb, List.length_drop]
    rw [← List.drop_append_of_le_length
      (Nat.sub_le (fs.backups ++ [encodeSave cfg p]).length cfg.maxBackups)]
    rw [List.drop_drop]
    rw [List.map_cons, ← List.singleton_append, ← List.append_assoc]
    congr 1
    simp only [List.length_append, List.length_cons, List.length_singleton,
      List.length_map, List.length_nil]
    omega
    simp

/-- Claim C8: a failure injected at any of the five points of `save`
(all at or before the atomic replace, the backup copy coming strictly
after it) leaves the backup directory unchanged; and after N+1 forced
successful saves at strictly increasing times starting from an empty
backup directory with retention N, exactly N backup files exist, namely
the N most recent ones (chronological list minus its oldest entry). -/
theorem C8_backup_rotation (cfg : StoreConfig) (st : StoreState) (fs : StoreFS)
    (N : Nat) (L : List (Nat × Finset Nat)) (now : Nat) (fp : SaveFail)
    (hN : cfg.maxBackups = N)
    (hlen : L.length = N + 1)
    (hasc : ascendingTimes L = true)
    (hB : fs.backups = []) :
    (MessageStore_save cfg true now (some fp) st fs).2.backups = fs.backups
    ∧ (simulateSaves cfg L st fs).2.backups = (L.map (encodeSave cfg)).drop 1
    ∧ ((simulateSaves cfg L st fs).2.backups).length = N := by
  have hrot : (simulateSaves cfg L st fs).2.backups = (L.map (encodeSave cfg)).drop 1 := by
    have := simulateSaves_backups cfg L st fs hasc (by rw [hB]; rfl)
      (by rw [hB]; exact Nat.zero_le _) (by rw [hB]; intro b hb; simp at hb)
    rw [this, hB, List.nil_append, List.length_nil, hlen, hN, Nat.zero_add,
      Nat.add_sub_cancel_left]
  refine ⟨?_, hrot, ?_⟩
  · cases fp <;> simp [MessageStore_save]
  · rw [hrot, List.length_drop, List.length_map, hlen]
    omega

/-- Witness for C8: retention 1, two saves at times 1 and 2 — the single
surviving backup is the one written at time 2. -/
theorem C8_backup_rotation_witness :
    (simulateSaves ⟨10, 1, none⟩ [(1, {4}), (2, ({4, 5} : Finset Nat))] ⟨∅, 0⟩
        ⟨none, none, [], []⟩).2.backups
      = ([(1, ({4} : Finset Nat)), (2, {4, 5})].map (encodeSave ⟨10, 1, none⟩)).drop 1 :=
  (C8_backup_rotation ⟨10, 1, none⟩ ⟨∅, 0⟩ ⟨none, none, [], []⟩ 1
    [(1, {4}), (2, {4, 5})] 0 SaveFail.serialize rfl rfl (by decide) rfl).2.1

theorem extractBatch_eq : ∀ (n : Nat) (q : List JobDict),
    extractBatch n q = (q.take n, q.drop n) := by
  intro n
  induction n with
  | zero => intro q; cases q <;> rfl
  | succ m ih =>
    intro q
    cases q with
    | nil => rfl
    | cons x rest => simp [extractBatch, ih rest]

theorem is_open_true_snd (now : Nat) (cb : CircuitBreaker)
    (h : (is_open now cb).1 = true) : (is_open now cb).2 = cb := by
  unfold is_open at h ⊢
  cases hs : cb.state <;> simp [hs] at h ⊢
  split at h
  · simp at h
  · split
    · next hc1 hc2 => exact absurd hc2 (by simpa using hc1)
    · rfl

theorem dispatchRounds_join (maxB : Nat) (h1 : 1 ≤ maxB) :
    ∀ (fuel : Nat) (q : List JobDict), q.length ≤ fuel →
      (dispatchRounds maxB fuel q).flatten = q
      ∧ ∀ b ∈ dispatchRounds maxB fuel q, b.length ≤ maxB := by
  intro fuel
  induction fuel with
  | zero =>
    intro q hq
    have : q = [] := List.eq_nil_of_length_eq_zero (Nat.le_antisymm hq (Nat.zero_le _))
    subst this
    simp [dispatchRounds]
  | succ n ih =>
    intro q hq
    cases q with
    | nil => simp [dispatchRounds]
    | cons x rest =>
      have hlen2 : ((x :: rest).drop maxB).length ≤ n := by
        simp only [List.length_drop, List.length_cons]
        simp only [List.length_cons] at hq
        omega
      obtain ⟨hj, hb⟩ := ih ((x :: rest).drop maxB) hlen2
      constructor
      · simp [dispatchRounds, extractBatch_eq, hj]
      · intro b hb2
        simp only [dispatchRounds, extractBatch_eq] at hb2
        rcases List.mem_cons.mp hb2 with rfl | hmem
        · exact List.length_take_le maxB (x :: rest)
        · exact hb b hmem

/-- Claim C4: the batch popped in a dispatch cycle is exactly the
oldest `min(queue length, max_batch_size)` items in enqueue order (the
prefix of the deque), never exceeds `max_batch_size`, and splitting off
the batch preserves the queue's content and order; consequently
repeated dispatch rounds over the items of one category yield the
enqueue order (their concatenation is the queue), every round bounded
by `max_batch_size`. -/
theorem C4_batch_fifo (cfg : QMConfig) (q : List JobDict) (fuel : Nat)
    (h1 : 1 ≤ cfg.maxBatchSize) (hfuel : q.length ≤ fuel) :
    (extractBatch cfg.maxBatchSize q).1 = q.take cfg.maxBatchSize
    ∧ (extractBatch cfg.maxBatchSize q).1.length = min q.length cfg.maxBatchSize
    ∧ (extractBatch cfg.maxBatchSize q).1.length ≤ cfg.maxBatchSize
    ∧ (extractBatch cfg.maxBatchSize q).1 ++ (extractBatch cfg.maxBatchSize q).2 = q
    ∧ (dispatchRounds cfg.maxBatchSize fuel q).flatten = q
    ∧ ∀ b ∈ dispatchRounds cfg.maxBatchSize fuel q, b.length ≤ cfg.maxBatchSize := by
  obtain ⟨hj, hb⟩ := dispatchRounds_join cfg.maxBatchSize h1 fuel q hfuel
  refine ⟨?_, ?_, ?_, ?_, hj, hb⟩
  · simp [extractBatch_eq]
  · simp [extractBatch_eq, List.length_take, Nat.min_comm]
  · simp [extractBatch_eq, List.length_take]
  · simp [extractBatch_eq]

/-- Witness for C4: batch size 2 over a three-item queue — two rounds
whose concatenation is the original queue. -/
theorem C4_batch_fifo_witness :
    (dispatchRounds 2 3 [⟨[]⟩, ⟨[("i", PyVal.vInt 2)]⟩, ⟨[("i", PyVal.vInt 3)]⟩]).flatten
      = [⟨[]⟩, ⟨[("i", PyVal.vInt 2)]⟩, ⟨[("i", PyVal.vInt 3)]⟩] :=
  (C4_batch_fifo ⟨100, 2, 0⟩ [⟨[]⟩, ⟨[("i", PyVal.vInt 2)]⟩, ⟨[("i", PyVal.vInt 3)]⟩] 3
    (by decide) (by decide)).2.2.2.2.1

/-- Claim C5: when the category's breaker reports open in a dispatch
cycle, the popped batch is pushed back onto the front of the queue in
its original relative order (the queue is restored exactly), no sink
call and no breaker recording happens (no events), the failed-item
store is untouched, and the breaker itself is unchanged — a skip, not a
failure. -/
theorem C5_open_skip (cfg : QMConfig) (now : Nat) (outcome : SinkOutcome)
    (q : List JobDict) (cb : CircuitBreaker) (failed : List JobDict)
    (hopen : (is_open now cb).1 = true) :
    (processCategory cfg now outcome q cb failed).queue = q
    ∧ (processCategory cfg now outcome q cb failed).breaker = cb
    ∧ (processCategory cfg now outcome q cb failed).failed = failed
    ∧ (processCategory cfg now outcome q cb failed).events = []
    ∧ (processCategory cfg now outcome q cb failed).processedOk = false := by
  have hsnd := is_open_true_snd now cb hopen
  by_cases hq : q = []
  · subst hq
    simp [processCategory]
  · by_cases hb : q.take cfg.maxBatchSize = []
    · have hmb0 : cfg.maxBatchSize = 0 := by
        rcases (List.take_eq_nil_iff).mp hb with h | h
        · exact h
        · exact absurd h hq
      simp [processCategory, extractBatch_eq, hq, hb, hmb0]
    · simp [processCategory, extractBatch_eq, hq, hb, hopen, hsnd]

/-- Witness for C5: a breaker opened at time 0 with timeout 5, checked
at time 3 over a one-item queue — the queue is restored and no event is
emitted. -/
theorem C5_open_skip_witness :
    (processCategory ⟨100, 2, 0⟩ 3 SinkOutcome.ok [⟨[]⟩] ⟨2, 5, 2, 0, BState.opened⟩ []).queue
        = [⟨[]⟩]
    ∧ (processCategory ⟨100, 2, 0⟩ 3 SinkOutcome.ok [⟨[]⟩] ⟨2, 5, 2, 0, BState.opened⟩
        []).events = [] :=
  ⟨(C5_open_skip ⟨100, 2, 0⟩ 3 SinkOutcome.ok [⟨[]⟩] ⟨2, 5, 2, 0, BState.opened⟩ []
      (by decide)).1,
   (C5_open_skip ⟨100, 2, 0⟩ 3 SinkOutcome.ok [⟨[]⟩] ⟨2, 5, 2, 0, BState.opened⟩ []
      (by decide)).2.2.2.1⟩

/-- Claim C6: when the sink returns False for a batch, or an unexpected
exception occurs while processing it, the whole batch is appended to
the category's permanent failed-item store, `record_failure` is called
on that category's breaker, the batch is not re-queued (the queue keeps
only the remaining items) and not dropped, and the failure stays inside
the dispatch cycle: the cycle is a total function and the other
category's slice is computed regardless of this category's outcome. -/
theorem C6_sink_failure (cfg : QMConfig) (now : Nat) (outcome : SinkOutcome)
    (q : List JobDict) (cb : CircuitBreaker) (failed : List JobDict)
    (hq : q ≠ []) (hmb : 1 ≤ cfg.maxBatchSize)
    (hopen : (is_open now cb).1 = false)
    (hout : outcome = SinkOutcome.fail ∨ outcome = SinkOutcome.exc) :
    (processCategory cfg now outcome q cb failed).failed = failed ++ q.take cfg.maxBatchSize
    ∧ (processCategory cfg now outcome q cb failed).queue = q.drop cfg.maxBatchSize
    ∧ (processCategory cfg now outcome q cb failed).events
        = [QEvent.sinkCall (q.take cfg.maxBatchSize), QEvent.recordedFailure]
    ∧ (processCategory cfg now outcome q cb failed).breaker
        = record_failure now (is_open now cb).2
    ∧ (processCategory cfg now outcome q cb failed).processedOk = false
    ∧ ∀ (st : QMState) (outLow : SinkOutcome),
        (process_queues cfg now true outcome outLow st).2
          = (processCategory cfg now outcome st.highQueue st.cbHigh st.failedHigh).events.map
              (fun e => ("high_salary", e))
            ++ (processCategory cfg now outLow st.lowQueue st.cbLow st.failedLow).events.map
              (fun e => ("low_salary", e)) := by
  have htake : q.take cfg.maxBatchSize ≠ [] := by
    intro hnil
    rcases (List.take_eq_nil_iff).mp hnil with h | h
    · omega
    · exact hq h
  refine ⟨?_, ?_, ?_, ?_, ?_, fun st outLow => by simp [process_queues]⟩ <;>
    rcases hout with rfl | rfl <;>
    simp [processCategory, extractBatch_eq, hq, htake, hopen, process_single_batch]

/-- Witness for C6: a closed breaker, batch size 2, a single-item queue
and a sink that returns False — the item lands in the failed store and
the breaker records the failure. -/
theorem C6_sink_failure_witness :
    (processCategory ⟨100, 2, 0⟩ 0 SinkOutcome.fail [⟨[]⟩] (CircuitBreaker.init 2 5) []).failed
        = [⟨[]⟩]
    ∧ (processCategory ⟨100, 2, 0⟩ 0 SinkOutcome.fail [⟨[]⟩] (CircuitBreaker.init 2 5)
        []).events
        = [QEvent.sinkCall [⟨[]⟩], QEvent.recordedFailure] :=
  ⟨(C6_sink_failure ⟨100, 2, 0⟩ 0 SinkOutcome.fail [⟨[]⟩] (CircuitBreaker.init 2 5) []
      (by decide) (by decide) (by decide) (Or.inl rfl)).1,
   (C6_sink_failure ⟨100, 2, 0⟩ 0 SinkOutcome.fail [⟨[]⟩] (CircuitBreaker.init 2 5) []
      (by decide) (by decide) (by decide) (Or.inl rfl)).2.2.1⟩

/-- Claim C9 (code bug): module `queue_manager.py` binds neither `Path`
nor `json`, so `_save_failed_items` with any non-empty per-category
failed-item list raises `NameError` at `Path(self.config.base_path)`
before any dump file is written; only with all categories empty does it
finish (writing nothing). -/
theorem C9_failed_dump_name_error :
    "Path" ∉ queueManagerModuleNames
    ∧ "json" ∉ queueManagerModuleNames
    ∧ save_failed_items 20240101 [("high_salary", [⟨[]⟩]), ("low_salary", [])]
        = PyOutcome.nameError "Path"
    ∧ save_failed_items 20240101 [("high_salary", []), ("low_salary", [])]
        = PyOutcome.ok [] := by
  refine ⟨by decide, by decide, by decide, by decide⟩

/-- Claim C10: `add_to_queue` with a non-dictionary payload returns at
once — no queue modified, no task scheduled, the item discarded; a
dictionary payload is appended to exactly one of the two queues, chosen
by the truthiness of its 'high_salary' key, with an absent key routing
to the low-salary queue; no other state field changes. -/
theorem C10_add_to_queue (cfg : QMConfig) (st : QMState) :
    (∀ v, add_to_queue cfg st (Payload.nondict v) = (st, []))
    ∧ (∀ d : JobDict,
        ((d.get "high_salary" (PyVal.vBool false)).truthy = true →
          (add_to_queue cfg st (Payload.dict d)).1.highQueue = st.highQueue ++ [d]
          ∧ (add_to_queue cfg st (Payload.dict d)).1.lowQueue = st.lowQueue)
        ∧ ((d.get "high_salary" (PyVal.vBool false)).truthy = false →
          (add_to_queue cfg st (Payload.dict d)).1.lowQueue = st.lowQueue ++ [d]
          ∧ (add_to_queue cfg st (Payload.dict d)).1.highQueue = st.highQueue)
        ∧ (d.fields.find? (fun p => p.1 == "high_salary") = none →
          (d.get "high_salary" (PyVal.vBool false)).truthy = false)
        ∧ (add_to_queue cfg st (Payload.dict d)).1.failedHigh = st.failedHigh
        ∧ (add_to_queue cfg st (Payload.dict d)).1.failedLow = st.failedLow
        ∧ (add_to_queue cfg st (Payload.dict d)).1.cbHigh = st.cbHigh
        ∧ (add_to_queue cfg st (Payload.dict d)).1.cbLow = st.cbLow
        ∧ (add_to_queue cfg st (Payload.dict d)).1.lastBatchProcessTime
            = st.lastBatchProcessTime) := by
  refine ⟨fun v => rfl, fun d => ?_⟩
  by_cases h : (d.get "high_salary" (PyVal.vBool false)).truthy
  · refine ⟨fun _ => ?_, fun hf => absurd h (by simp [hf]), fun hn => ?_, ?_, ?_, ?_, ?_, ?_⟩
    all_goals simp [add_to_queue, h]
    simp [JobDict.get, hn, PyVal.truthy] at h
  · refine ⟨fun ht => absurd ht (by simp [h]), fun _ => ?_, fun hn => ?_, ?_, ?_, ?_, ?_, ?_⟩
    all_goals simp [add_to_queue, h]

/-- Witness for C10: an integer payload is discarded; a dictionary with
a truthy 'high_salary' goes to the high queue; one without the key goes
to the low queue. -/
theorem C10_add_to_queue_witness :
    add_to_queue ⟨100, 5, 0⟩
        ⟨[], [], [], [], CircuitBreaker.init 2 5, CircuitBreaker.init 2 5, 0⟩
        (Payload.nondict (PyVal.vInt 7))
      = (⟨[], [], [], [], CircuitBreaker.init 2 5, CircuitBreaker.init 2 5, 0⟩, [])
    ∧ (add_to_queue ⟨100, 5, 0⟩
        ⟨[], [], [], [], CircuitBreaker.init 2 5, CircuitBreaker.init 2 5, 0⟩
        (Payload.dict ⟨[("high_salary", PyVal.vBool true)]⟩)).1.highQueue
      = [⟨[("high_salary", PyVal.vBool true)]⟩]
    ∧ (add_to_queue ⟨100, 5, 0⟩
        ⟨[], [], [], [], CircuitBreaker.init 2 5, CircuitBreaker.init 2 5, 0⟩
        (Payload.dict ⟨[]⟩)).1.lowQueue = [⟨[]⟩] :=
  ⟨(C10_add_to_queue ⟨100, 5, 0⟩
      ⟨[], [], [], [], CircuitBreaker.init 2 5, CircuitBreaker.init 2 5, 0⟩).1
      (PyVal.vInt 7),
   ((C10_add_to_queue ⟨100, 5, 0⟩
      ⟨[], [], [], [], CircuitBreaker.init 2 5, CircuitBreaker.init 2 5, 0⟩).2
      ⟨[("high_salary", PyVal.vBool true)]⟩).1 (by decide) |>.1,
   ((C10_add_to_queue ⟨100, 5, 0⟩
      ⟨[], [], [], [], CircuitBreaker.init 2 5, CircuitBreaker.init 2 5, 0⟩).2
      ⟨[]⟩).2.1 (by decide) |>.1⟩

/-- Witness for C1: threshold 2, timeout 5 — two failures open the
breaker, and a check 3 ticks after a failure at 0 reports open with no
change. -/
theorem C1_breaker_transitions_witness :
    (iterate_failures 7 2 (CircuitBreaker.init 2 5)).state = BState.opened
    ∧ is_open 3 ⟨2, 5, 0, 0, BState.opened⟩ = (true, ⟨2, 5, 0, 0, BState.opened⟩) := by
  refine ⟨(C1_breaker_transitions 2 5 7 (by decide)).1, ?_⟩
  exact (C1_breaker_transitions 2 5 7 (by decide)).2.1 ⟨2, 5, 0, 0, BState.opened⟩ 3 rfl
    (by decide)

end WebScrape
